import Mathlib

/-!
Verification of the whatsupdoc RAG orchestration pipeline.

This file gives a shallow embedding, in Lean, of the core data model and
operations of the repository: the answer generator of
`src/whatsupdoc/gemini_rag.py` (`GeminiRAGService.generate_answer`), the
per-user fixed-window rate limiter and query normalizer of
`src/whatsupdoc/slack_bot.py`, the retrieval-result parser and error
handling of `src/whatsupdoc/core/vertex_rag_client.py`, and the chat
endpoint wiring of `src/whatsupdoc/web/api.py` together with
`src/whatsupdoc/web/service.py`.

Conventions used by the embedding:
- Python floats are modelled as rationals.
- Python strings are modelled as Lean strings; `str.strip`, `in`
  (substring), `str.lower`, `str.startswith` and the one regular
  expression used by the code are given explicit executable definitions.
- The two external network services (vector retrieval and generative
  model) are modelled as explicit arguments: an `Except` value stands for
  the reply of one round trip, with `Except.error` standing for a raised
  exception.
-/

/-! ## Python string primitives -/

/-- The ASCII whitespace characters recognised by Python `str.strip()`:
tab, newline, vertical tab, form feed, carriage return and space. -/
def pyIsSpace (c : Char) : Bool :=
  (9 ≤ c.toNat && c.toNat ≤ 13) || c.toNat == 32

/-- Python `str.strip()` on the character list: remove leading and
trailing whitespace. -/
def pyStripList (l : List Char) : List Char :=
  List.rdropWhile pyIsSpace (List.dropWhile pyIsSpace l)

/-- Python `str.strip()`. -/
def pyStrip (s : String) : String :=
  String.mk (pyStripList s.data)

/-- Python `"".join(parts)`: concatenation of a list of strings. -/
def joinAll : List String → String
  | [] => ""
  | s :: rest => s ++ joinAll rest

/-- Python substring test `pat in hay` on character lists: `pat` occurs
contiguously somewhere in `hay`. -/
def containsSub : List Char → List Char → Bool
  | [], pat => pat.isEmpty
  | c :: rest, pat => pat.isPrefixOf (c :: rest) || containsSub rest pat

/-- Python substring test `pat in hay` on strings. -/
def str_contains (hay pat : String) : Bool :=
  containsSub hay.data pat.data

/-- Python `str.lower()` (ASCII case folding suffices for the error
substrings matched by the code). -/
def strLower (s : String) : String :=
  String.mk (s.data.map Char.toLower)

/-! ## Python float formatting

`f"{x:.1%}"` renders `x` as a percentage with one decimal digit, rounding
half to even. The value is computed exactly on the numerator and
denominator of the rational. -/

/-- The value of `x` in tenths of a percent, rounded half to even:
the integer nearest `x * 1000`. -/
def pctTenths (q : ℚ) : ℤ :=
  let n := q.num * 1000
  let d := (q.den : ℤ)
  let f := n.fdiv d
  let r := n - f * d
  if 2 * r < d then f
  else if 2 * r > d then f + 1
  else if f % 2 = 0 then f else f + 1

/-- Python `f"{q:.1%}"`. -/
def fmtPct (q : ℚ) : String :=
  let m := pctTenths q
  (if m < 0 then "-" else "") ++ toString (m.natAbs / 10) ++ "." ++ toString (m.natAbs % 10) ++ "%"

/-! ## Data model of `vertex_rag_client.py` / `gemini_rag.py`

`SearchResult` is the dataclass of `src/whatsupdoc/vertex_rag_client.py`
(the variant consumed by `GeminiRAGService`); `metadata` is an open
key-value map, modelled as an association list. -/

structure SearchResult where
  title : String
  snippet : String
  source_uri : String
  confidence_score : ℚ
  metadata : List (String × String) := []
deriving DecidableEq

/-- `RAGResponse` dataclass of `src/whatsupdoc/gemini_rag.py`. -/
structure RAGResponse where
  answer : String
  sources : List SearchResult
  confidence_score : ℚ
  has_citations : Bool := true
deriving DecidableEq

/-- Arithmetic mean of the confidence scores of a list of results,
as computed by `sum(r.confidence_score for r in used) / len(used)`. -/
def mean_confidence (l : List SearchResult) : ℚ :=
  (l.map (fun r => r.confidence_score)).sum / (l.length : ℚ)

/-! ## `GeminiRAGService.generate_answer` (`src/whatsupdoc/gemini_rag.py`) -/

/-- The formatted context block for the `i`-th result (1-based), exactly
as assembled by `generate_answer`:

    Source i (Confidence: p%):
    Title: t
    Content: s
    [URL: u]
    (blank line)

The URL line is present only when `source_uri` is non-empty. -/
def source_text (i : ℕ) (r : SearchResult) : String :=
  "Source " ++ toString i ++ " (Confidence: " ++ fmtPct r.confidence_score ++ "):\n"
    ++ "Title: " ++ r.title ++ "\n"
    ++ "Content: " ++ r.snippet ++ "\n"
    ++ (if r.source_uri ≠ "" then "URL: " ++ r.source_uri ++ "\n" else "")
    ++ "\n"

/-- The context-assembly loop of `generate_answer`: starting at index `i`
with accumulated length `total`, format each result, stop (`break`) at the
first block whose addition would push `total` past `maxLen`, and return
the collected blocks, the final accumulated length and the used results. -/
def build_context (maxLen : ℕ) : ℕ → ℕ → List SearchResult → List String × ℕ × List SearchResult
  | _, total, [] => ([], total, [])
  | i, total, r :: rest =>
    let s := source_text i r
    if total + s.length > maxLen then ([], total, [])
    else
      let p := build_context maxLen (i + 1) (total + s.length) rest
      (s :: p.1, p.2.1, r :: p.2.2)

/-- The `context_parts` accumulated by `generate_answer`. -/
def context_parts (maxLen : ℕ) (results : List SearchResult) : List String :=
  (build_context maxLen 1 0 results).1

/-- The final `total_length` accumulated by `generate_answer`. -/
def context_total (maxLen : ℕ) (results : List SearchResult) : ℕ :=
  (build_context maxLen 1 0 results).2.1

/-- The `used_sources` collected by `generate_answer`: the results whose
blocks were included in the context. -/
def used_sources (maxLen : ℕ) (results : List SearchResult) : List SearchResult :=
  (build_context maxLen 1 0 results).2.2

/-- `GeminiRAGService._build_rag_prompt`. The third argument is unused by
the Python body as well. -/
def build_rag_prompt (query : String) (context : String) (_num_sources : ℕ) : String :=
  "You are a helpful AI assistant that answers questions based on the provided context from company documents.\n\nQUERY: "
    ++ query
    ++ "\n\nCONTEXT (from company documents):\n"
    ++ context
    ++ "\n\nINSTRUCTIONS:\n1. Answer the question comprehensively using ONLY the information provided in the context above\n2. If the context doesn\x27t contain enough information to fully answer the question, say so explicitly\n3. Include specific references to sources (e.g., \"According to Source 1...\" or \"Source 2 mentions...\")\n4. If multiple sources provide similar information, synthesize them coherently\n5. If sources contradict each other, acknowledge the discrepancy\n6. Maintain a professional, helpful tone\n7. Structure your response clearly with proper formatting\n8. If the question cannot be answered from the provided context, explain what additional information would be needed\n\nANSWER:"

/-- The fixed response returned when `search_results` is empty. -/
def no_results_response : RAGResponse :=
  ⟨"I couldn\x27t find relevant information to answer your question. Please try rephrasing your query or asking about a different topic.",
   [], 0, false⟩

/-- The fixed response returned when not even the first context block fits
the budget. -/
def too_lengthy_response : RAGResponse :=
  ⟨"The available information is too lengthy to process. Please try a more specific question.",
   [], 0, false⟩

/-- `GeminiRAGService.generate_answer`. The single call to the generative
model is modelled by `model_reply`: `Except.error e` stands for the call
raising an exception with message `e` (caught by the surrounding
`try`/`except`), `Except.ok text` for a reply with text `text` (the empty
string standing for a falsy `response.text`). -/
def generate_answer (query : String) (search_results : List SearchResult)
    (max_context_length : ℕ) (model_reply : Except String String) : RAGResponse :=
  if search_results = [] then no_results_response
  else
    let b := build_context max_context_length 1 0 search_results
    let used := b.2.2
    if b.1 = [] then too_lengthy_response
    else
      let context := joinAll b.1
      let overall_confidence := mean_confidence used
      let _prompt := build_rag_prompt query context used.length
      match model_reply with
      | Except.error e =>
        ⟨"I encountered an error while processing your request: " ++ e,
         search_results.take 3, 0, false⟩
      | Except.ok text =>
        if text = "" then
          ⟨"I\x27m having trouble generating a response right now. Please try again.",
           used, overall_confidence, false⟩
        else
          let answer_text := pyStrip text
          let has_cits := (List.range' 1 used.length).any
            (fun i => str_contains answer_text ("Source " ++ toString i))
          ⟨answer_text, used, overall_confidence, has_cits⟩

/-! ## Rate limiter (`ResearchPaperBot._check_rate_limit`,
`src/whatsupdoc/slack_bot.py`)

The two process-wide dicts `user_query_count` and `user_last_reset` are
modelled as partial maps from user id; `time.time()` values are rationals
supplied by the caller. -/

/-- The pair of global maps `user_query_count` / `user_last_reset`. -/
structure RLState where
  count : String → Option ℕ
  lastReset : String → Option ℚ

/-- Both dicts empty (process start). -/
def emptyRL : RLState :=
  ⟨fun _ => none, fun _ => none⟩

/-- Dict update `m[k] = v`. -/
def updFn {α : Type} (f : String → Option α) (k : String) (v : α) : String → Option α :=
  fun x => if x = k then some v else f x

/-- `_check_rate_limit(user_id)` with the window and limit taken from the
configuration: reset the counter if the window expired (or initialise both
entries for a first-time user), then reject without incrementing when the
count has reached the limit, else increment and accept. Returns the bool
result together with the updated global state. -/
def check_rate_limit (window : ℚ) (limit : ℕ) (st : RLState) (user_id : String)
    (current_time : ℚ) : Bool × RLState :=
  let st1 :=
    match st.lastReset user_id with
    | some lr =>
      if current_time - lr ≥ window then
        ⟨updFn st.count user_id 0, updFn st.lastReset user_id current_time⟩
      else st
    | none =>
      ⟨updFn st.count user_id 0, updFn st.lastReset user_id current_time⟩
  let current_count := (st1.count user_id).getD 0
  if current_count ≥ limit then (false, st1)
  else (true, ⟨updFn st1.count user_id (current_count + 1), st1.lastReset⟩)

/-- The count that `_check_rate_limit` reads after its reset/initialise
step: 0 for a first-time user or an expired window, otherwise the stored
count (0 when absent). -/
def eff_count (window : ℚ) (st : RLState) (user_id : String) (now : ℚ) : ℕ :=
  match st.lastReset user_id with
  | some lr => if now - lr ≥ window then 0 else (st.count user_id).getD 0
  | none => 0

/-- Run a sequence of rate-limit checks for one user at the given times,
collecting the accept/reject answers and threading the state. -/
def run_requests (window : ℚ) (limit : ℕ) (user_id : String) :
    RLState → List ℚ → List Bool × RLState
  | st, [] => ([], st)
  | st, t :: ts =>
    let p := check_rate_limit window limit st user_id t
    let rest := run_requests window limit user_id p.2 ts
    (p.1 :: rest.1, rest.2)

/-! ## Query normalizer (`ResearchPaperBot._clean_query`) -/

/-- A character allowed inside a Slack mention id: the regex class
`[A-Z0-9]`. -/
def isMentionChar (c : Char) : Bool :=
  ('A' ≤ c && c ≤ 'Z') || ('0' ≤ c && c ≤ '9')

/-- `re.sub(r"<@U[A-Z0-9]+>", "", text)`: scan left to right; at each
position, if `<@U`, a non-empty run of `[A-Z0-9]` and `>` match, delete
the match and continue after it, otherwise keep one character and move
on. The fuel argument (instantiated with the length of the list) only
makes the recursion structural; each step consumes at least one character,
so the fuel is never exhausted. -/
def stripMentionsGo : ℕ → List Char → List Char
  | 0, l => l
  | _ + 1, [] => []
  | fuel + 1, c :: rest =>
    if c = '<' then
      match rest with
      | '@' :: 'U' :: rest2 =>
        let run := rest2.takeWhile isMentionChar
        if run.isEmpty then c :: stripMentionsGo fuel rest
        else
          match rest2.drop run.length with
          | '>' :: tail => stripMentionsGo fuel tail
          | _ => c :: stripMentionsGo fuel rest
      | _ => c :: stripMentionsGo fuel rest
    else c :: stripMentionsGo fuel rest

/-- `_clean_query`: strip whitespace, delete `<@U...>` mention tokens and
strip again, then drop one leading `/ask` token and strip once more. -/
def clean_query (text : String) : String :=
  let t1 := pyStripList text.data
  let t2 := pyStripList (stripMentionsGo t1.length t1)
  let t3 := if ("/ask".data).isPrefixOf t2 then pyStripList (t2.drop 4) else t2
  String.mk t3

/-! ## Orchestrator prefix (`ResearchPaperBot._handle_query`)

Only the request-validation prefix of the handler is deterministic code of
the bot: check the rate limit, clean the query, reject too-short queries,
and otherwise post the loading message and call the retrieval client. The
first externally visible action is captured by `BotReply`; a
`BotReply.search` value marks the path on which the retrieval client is
invoked with the cleaned query. -/

inductive BotReply where
  | rate_limited : BotReply
  | guidance : BotReply
  | search : String → BotReply
deriving DecidableEq

/-- Whether the reply path invokes the retrieval client. -/
def calls_search : BotReply → Bool
  | BotReply.search _ => true
  | _ => false

/-- The validation prefix of `_handle_query`: the rate limit is checked
first; then the query is cleaned and rejected if shorter than 3
characters after stripping; otherwise the handler proceeds to search. -/
def handle_query (window : ℚ) (limit : ℕ) (st : RLState) (user_id : String)
    (now : ℚ) (query_text : String) : BotReply × RLState :=
  let p := check_rate_limit window limit st user_id now
  if p.1 = false then (BotReply.rate_limited, p.2)
  else
    let cq := clean_query query_text
    if cq = "" ∨ (pyStrip cq).length < 3 then (BotReply.guidance, p.2)
    else (BotReply.search cq, p.2)

/-! ## Retrieval-result parsing (`VertexRAGClient.search_async`,
`src/whatsupdoc/core/vertex_rag_client.py`)

The JSON envelope `response_data["contexts"]["contexts"]` is a list of
heterogeneous context records. Each optional field is an `Option`; the two
numeric fields carry `Except Unit ℚ`, where `Except.error ()` stands for a
present value on which `float(...)` raises (any such per-entry exception
is caught by the loop's `try`/`except`, which skips the entry). -/

instance {ε α : Type} [DecidableEq ε] [DecidableEq α] : DecidableEq (Except ε α) := fun x y =>
  match x, y with
  | Except.ok a, Except.ok b =>
    if h : a = b then isTrue (by rw [h]) else isFalse (by intro hc; cases hc; exact h rfl)
  | Except.error a, Except.error b =>
    if h : a = b then isTrue (by rw [h]) else isFalse (by intro hc; cases hc; exact h rfl)
  | Except.ok _, Except.error _ => isFalse (by intro hc; cases hc)
  | Except.error _, Except.ok _ => isFalse (by intro hc; cases hc)

namespace Core

/-- The chunk sub-record: only `pageSpan` is read, and only copied into
the metadata, so its payload is kept opaque as a string. -/
structure ChunkInfo where
  pageSpan : Option String
deriving DecidableEq

/-- One entry of the retrieval response envelope. -/
structure RawContext where
  text : Option String
  sourceUri : Option String
  sourceDisplayName : Option String
  distance : Option (Except Unit ℚ)
  score : Option (Except Unit ℚ)
  chunk : Option ChunkInfo
deriving DecidableEq

/-- The metadata dict built for each parsed result. -/
structure Metadata where
  chunk_index : ℕ
  rag_engine : Bool
  chunk_length : ℕ
  page_span : Option String
deriving DecidableEq

/-- The `SearchResult` dataclass of
`src/whatsupdoc/core/vertex_rag_client.py` (`content` there is the full
chunk text; the legacy `snippet` property returns it unchanged). -/
structure SearchResult where
  title : String
  content : String
  source_uri : String
  confidence_score : ℚ
  metadata : Option Metadata := none
deriving DecidableEq

/-- The body of the parsing loop for the entry at index `i` (0-based):
defaulted field extraction, confidence derivation (clamped `1 - distance`
when a distance is present, else the raw score, else 0.8), and metadata
assembly. `Except.error ()` is the per-entry exception path. -/
def parse_context (i : ℕ) (c : RawContext) : Except Unit SearchResult := do
  let content := c.text.getD ""
  let source_uri := c.sourceUri.getD ""
  let title := c.sourceDisplayName.getD ("Document " ++ toString (i + 1))
  let confidence_score ←
    match c.distance with
    | some v => do
      let d ← v
      pure (max (1 / 10 : ℚ) (min 1 (1 - d)))
    | none =>
      match c.score with
      | some v => v
      | none => pure ((4 : ℚ) / 5)
  pure ⟨title, content, source_uri, confidence_score,
        some ⟨i, true, content.length, c.chunk.bind (fun ch => ch.pageSpan)⟩⟩

/-- The parsing loop from index `k` on: parsed entries are appended,
entries whose processing raises are skipped (`continue`), and the index
advances either way. -/
def parse_contexts_from (k : ℕ) : List RawContext → List SearchResult
  | [] => []
  | c :: cs =>
    match parse_context k c with
    | Except.ok r => r :: parse_contexts_from (k + 1) cs
    | Except.error _ => parse_contexts_from (k + 1) cs

/-- The full parsing loop (`enumerate` starts at 0). -/
def parse_contexts (cs : List RawContext) : List SearchResult :=
  parse_contexts_from 0 cs

/-- The backend-error classifier of `search_async`:
`"not implemented" in str(e).lower() or "501" in str(e)`. -/
def is_not_impl_err (e : String) : Bool :=
  str_contains (strLower e) "not implemented" || str_contains e "501"

/-- `VertexRAGClient.search_async`, with the one REST round trip modelled
by `backend`: `Except.ok cs` is a parsed JSON envelope holding the context
list, `Except.error e` a raised exception with message `e`. A
"not implemented"/501 backend error yields an empty result list; every
other error is re-raised. -/
def search_async (backend : Except String (List RawContext)) :
    Except String (List SearchResult) :=
  match backend with
  | Except.ok cs => Except.ok (parse_contexts cs)
  | Except.error e =>
    if is_not_impl_err e then Except.ok [] else Except.error e

/-- `VertexRAGClient.test_connection_async`: run a probe search; report
success, and also report success when the failure is the
"not implemented" condition. -/
def test_connection_async (backend : Except String (List RawContext)) : Bool :=
  match search_async backend with
  | Except.ok _ => true
  | Except.error e => if is_not_impl_err e then true else false

end Core

/-! ## Web chat endpoint (`chat_endpoint`, `src/whatsupdoc/web/api.py`,
with `WebRAGService.process_query`, `src/whatsupdoc/web/service.py`) -/

/-- The `ChatRequest` Pydantic schema. -/
structure ChatRequest where
  query : String
  conversation_id : Option String := none
  max_results : Option ℕ := some 10
  confidence_threshold : Option ℚ := some (1 / 2)
deriving DecidableEq

/-- The Pydantic validation constraints on `ChatRequest`: query length in
1..5000, `max_results` in 1..50 when given, `confidence_threshold` in
[0, 1] when given. -/
def valid_chat_request (r : ChatRequest) : Prop :=
  1 ≤ r.query.length ∧ r.query.length ≤ 5000 ∧
  (match r.max_results with
   | some m => 1 ≤ m ∧ m ≤ 50
   | none => True) ∧
  (match r.confidence_threshold with
   | some c => 0 ≤ c ∧ c ≤ 1
   | none => True)

/-- `WebRAGResult` returned by `WebRAGService.process_query`. -/
structure WebRAGResult where
  answer : String
  confidence : ℚ
  sources : List String
  processing_time_ms : ℕ
deriving DecidableEq

/-- The `ChatResponse` schema. -/
structure ChatResponse where
  answer : String
  confidence : ℚ
  sources : List String
  conversation_id : String
  response_time_ms : ℕ
deriving DecidableEq

/-- Outcome of the endpoint: a success body, or an `HTTPException` with a
status code and the `error_code` of its `ErrorResponse` detail. -/
inductive ChatOutcome where
  | success : ChatResponse → ChatOutcome
  | http_error : ℕ → String → ChatOutcome
deriving DecidableEq

/-- The keyword parameters accepted by `WebRAGService.process_query`
(`self` aside): its signature is
`process_query(query, conversation_id, max_results=10, distance_threshold=0.8)`. -/
def process_query_params : List String :=
  ["query", "conversation_id", "max_results", "distance_threshold"]

/-- The keyword arguments `chat_endpoint` passes in its call
`rag_service.process_query(query=..., conversation_id=..., max_results=..., confidence_threshold=...)`. -/
def chat_call_keywords : List String :=
  ["query", "conversation_id", "max_results", "confidence_threshold"]

/-- Python call binding: the call succeeds only if every keyword argument
names a parameter of the callee; otherwise the call raises `TypeError`
before the callee body runs. -/
def chat_call_binds : Bool :=
  chat_call_keywords.all (fun k => process_query_params.contains k)

/-- `chat_endpoint` for a request handled while the RAG service is
initialised. `conv_id` is the generated-or-given conversation id and
`svc` the `WebRAGResult` that `process_query` would produce; the
surrounding `try`/`except` turns any exception — including a `TypeError`
from binding the `process_query` call — into an HTTP 500 with error code
`PROCESSING_ERROR`. -/
def chat_endpoint (_req : ChatRequest) (conv_id : String) (svc : WebRAGResult) : ChatOutcome :=
  if chat_call_binds then
    ChatOutcome.success ⟨svc.answer, svc.confidence, svc.sources, conv_id, svc.processing_time_ms⟩
  else ChatOutcome.http_error 500 "PROCESSING_ERROR"

/-! ## Concrete data used to exercise the definitions

`q45` is the rational 4/5 (= 0.8) given directly in lowest terms, so that
every field access on it is a plain projection. -/

def q45 : ℚ := ⟨4, 5, by norm_num, by norm_num⟩

/-- Five candidate results with confidence 0.8 each; every formatted
block is 60 characters long, so with a budget of 120 exactly the first
two blocks fit. -/
def sr1 : SearchResult := ⟨"A", "aaaaaaaaaa", "", q45, []⟩

def sr2 : SearchResult := ⟨"B", "bbbbbbbbbb", "", q45, []⟩

def sr3 : SearchResult := ⟨"C", "cccccccccc", "", q45, []⟩

def sr4 : SearchResult := ⟨"D", "dddddddddd", "", q45, []⟩

def sr5 : SearchResult := ⟨"E", "eeeeeeeeee", "", q45, []⟩

def rs5 : List SearchResult := [sr1, sr2, sr3, sr4, sr5]

/-- An envelope entry with every optional field absent. -/
def ctx_empty : Core.RawContext := ⟨none, none, none, none, none, none⟩

/-- An entry whose `distance` field is present but not float-convertible:
processing it raises, and the loop skips it. -/
def ctx_bad : Core.RawContext := ⟨some "bad", none, none, some (Except.error ()), none, none⟩

/-- A well-formed entry carrying only a text. -/
def ctx_textonly : Core.RawContext := ⟨some "hello", none, none, none, none, none⟩

/-- An entry with distance -5 (a raw distance far below the valid range). -/
def ctx_dist_neg5 : Core.RawContext := ⟨none, none, none, some (Except.ok (-5)), none, none⟩

/-- An entry with distance 5 (a raw distance far above the valid range). -/
def ctx_dist5 : Core.RawContext := ⟨none, none, none, some (Except.ok 5), none, none⟩

/-- An entry with distance 1/2. -/
def ctx_dist_half : Core.RawContext := ⟨none, none, none, some (Except.ok (1 / 2)), none, none⟩

/-- An entry with no distance and a raw score of 1. -/
def ctx_score_one : Core.RawContext := ⟨none, none, none, none, some (Except.ok 1), none⟩

/-- An entry with no distance and a raw score of 5: the code uses the
value unclamped. -/
def ctx_score_five : Core.RawContext := ⟨none, none, none, none, some (Except.ok 5), none⟩

/-! ## General lemmas about the embedding -/

/-- The length of a concatenation is the sum of the lengths. -/
theorem joinAll_length (l : List String) :
    (joinAll l).length = (l.map String.length).sum := by
  induction l with
  | nil => rfl
  | cons s rest ih => simp [joinAll, ih]

/-- Full characterisation of the context-assembly loop: the used results
are a prefix of the input (of some length `n`), one block is collected per
used result, the accumulated length is the starting length plus the block
lengths, the block right after the prefix (when one exists) would
overflow the budget, and the accumulated length never exceeds the budget
when the starting length does not. -/
theorem build_context_spec (maxLen : ℕ) (l : List SearchResult) :
    ∀ (i total : ℕ), ∃ n, n ≤ l.length ∧
      (build_context maxLen i total l).2.2 = l.take n ∧
      ((build_context maxLen i total l).1).length = n ∧
      (build_context maxLen i total l).2.1
        = total + (((build_context maxLen i total l).1).map String.length).sum ∧
      (∀ h : n < l.length,
        (build_context maxLen i total l).2.1
          + (source_text (i + n) (l.get ⟨n, h⟩)).length > maxLen) ∧
      (total ≤ maxLen → (build_context maxLen i total l).2.1 ≤ maxLen) := by
  induction l with
  | nil =>
    intro i total
    refine ⟨0, Nat.le_refl 0, rfl, rfl, by simp [build_context], ?_, fun h => h⟩
    intro h
    exact absurd h (by simp)
  | cons r rest ih =>
    intro i total
    by_cases hov : total + (source_text i r).length > maxLen
    · refine ⟨0, Nat.zero_le _, ?_, ?_, ?_, ?_, ?_⟩
      · simp [build_context, if_pos hov]
      · simp [build_context, if_pos hov]
      · simp [build_context, if_pos hov]
      · intro h
        simpa [build_context, if_pos hov] using hov
      · intro hle
        simpa [build_context, if_pos hov] using hle
    · obtain ⟨n, hn, hused, hlen, htot, hover, hbound⟩ :=
        ih (i + 1) (total + (source_text i r).length)
      have hfits : total + (source_text i r).length ≤ maxLen := Nat.le_of_not_lt hov
      refine ⟨n + 1, by simpa using Nat.succ_le_succ hn, ?_, ?_, ?_, ?_, ?_⟩
      · simp only [build_context, if_neg hov, List.take_succ_cons]
        rw [hused]
      · simp only [build_context, if_neg hov, List.length_cons]
        rw [hlen]
      · simp only [build_context, if_neg hov, List.map_cons, List.sum_cons]
        rw [htot]
        omega
      · intro h
        have hn2 : n < rest.length := by simpa using Nat.lt_of_succ_lt_succ h
        have := hover hn2
        have hidx : i + (n + 1) = i + 1 + n := by omega
        simp only [build_context, if_neg hov, hidx, List.get_cons_succ]
        exact this
      · intro _
        simp only [build_context, if_neg hov]
        exact hbound hfits

/-- Claim C1: for every query, non-empty result list and context budget,
`generate_answer` takes the used sources as a prefix of the results in the
given order, stops at the first formatted block whose addition would
exceed the budget (dropping all later results), keeps the total assembled
context length within `max_context_chars`, and returns the fixed
"too lengthy to process" response — independently of the model reply, so
without calling the model — when even the first block does not fit. -/
theorem claim_c1 (query : String) (results : List SearchResult) (maxLen : ℕ)
    (model_reply : Except String String) (hne : results ≠ []) :
    (∃ n, n ≤ results.length ∧
       used_sources maxLen results = results.take n ∧
       ∀ h : n < results.length,
         context_total maxLen results
           + (source_text (n + 1) (results.get ⟨n, h⟩)).length > maxLen) ∧
    (joinAll (context_parts maxLen results)).length ≤ maxLen ∧
    ((source_text 1 (results.head hne)).length > maxLen →
       generate_answer query results maxLen model_reply = too_lengthy_response) := by
  obtain ⟨n, hn, hused, hlen, htot, hover, hbound⟩ := build_context_spec maxLen results 1 0
  refine ⟨⟨n, hn, hused, ?_⟩, ?_, ?_⟩
  · intro h
    have := hover h
    rwa [Nat.add_comm 1 n] at this
  · rw [joinAll_length]
    have h1 : context_total maxLen results
        = ((context_parts maxLen results).map String.length).sum := by
      simpa [context_total, context_parts] using htot
    rw [← h1]
    exact hbound (Nat.zero_le _)
  · intro hfirst
    obtain ⟨r, rest, rfl⟩ := List.exists_cons_of_ne_nil hne
    have hfirst2 : (source_text 1 r).length > maxLen := by
      simpa using hfirst
    have hb : build_context maxLen 1 0 (r :: rest) = ([], 0, []) := by
      simp only [build_context]
      rw [if_pos (by simpa using hfirst2)]
    simp [generate_answer, hb]

/-- Concrete instance of claim C1: five results of which exactly two fit a
budget of 120 characters. -/
theorem claim_c1_witness :
    rs5 ≠ [] ∧
    ((∃ n, n ≤ rs5.length ∧
       used_sources 120 rs5 = rs5.take n ∧
       ∀ h : n < rs5.length,
         context_total 120 rs5 + (source_text (n + 1) (rs5.get ⟨n, h⟩)).length > 120) ∧
    (joinAll (context_parts 120 rs5)).length ≤ 120 ∧
    ((source_text 1 (rs5.head (by decide))).length > 120 →
       generate_answer "What is the PTO policy?" rs5 120 (Except.ok "Source 1 says.") =
         too_lengthy_response)) :=
  ⟨by decide, claim_c1 "What is the PTO policy?" rs5 120 (Except.ok "Source 1 says.") (by decide)⟩

/-- Claim C2, amended: with a non-empty result list and a non-empty
assembled context, the response returned by `generate_answer` carries
`sources` equal to exactly the used subset and `confidence_score` equal to
the mean over that used subset both on success and on empty model output
(the latter with `has_citations = false`); but on a model-call exception
the code instead returns the first three of the full candidate list as
`sources` and a confidence of 0.0. -/
theorem claim_c2 (query : String) (results : List SearchResult) (maxLen : ℕ)
    (text e : String) (hne : results ≠ []) (hparts : context_parts maxLen results ≠ [])
    (htext : text ≠ "") :
    ((generate_answer query results maxLen (Except.ok text)).sources
        = used_sources maxLen results ∧
     (generate_answer query results maxLen (Except.ok text)).confidence_score
        = mean_confidence (used_sources maxLen results)) ∧
    ((generate_answer query results maxLen (Except.ok "")).sources
        = used_sources maxLen results ∧
     (generate_answer query results maxLen (Except.ok "")).confidence_score
        = mean_confidence (used_sources maxLen results) ∧
     (generate_answer query results maxLen (Except.ok "")).has_citations = false) ∧
    ((generate_answer query results maxLen (Except.error e)).sources = results.take 3 ∧
     (generate_answer query results maxLen (Except.error e)).confidence_score = 0 ∧
     (generate_answer query results maxLen (Except.error e)).has_citations = false) := by
  have hp : (build_context maxLen 1 0 results).1 ≠ [] := hparts
  refine ⟨⟨?_, ?_⟩, ⟨?_, ?_, ?_⟩, ⟨?_, ?_, ?_⟩⟩ <;>
    simp [generate_answer, hne, hp, htext, used_sources]

/-- Counterexample to claim C2 as stated: with five candidates of which
two fit the budget, a failing model call yields `sources` different from
the used subset (it is the first three candidates) and confidence 0.0
even though the used subset is non-empty with non-zero mean confidence. -/
theorem claim_c2_counterexample :
    used_sources 120 rs5 ≠ [] ∧
    (generate_answer "q" rs5 120 (Except.error "boom")).sources ≠ used_sources 120 rs5 ∧
    (generate_answer "q" rs5 120 (Except.error "boom")).confidence_score = 0 ∧
    mean_confidence (used_sources 120 rs5) ≠ 0 := by
  have hq : q45 = 4 / 5 := by
    norm_num [q45, Rat.mk'_eq_divInt, Rat.divInt_eq_div]
  have hu : used_sources 120 rs5 = [sr1, sr2] := by rfl
  refine ⟨by decide, ?_, by decide, ?_⟩
  · intro h
    have hlen := congrArg List.length h
    revert hlen
    decide
  · rw [hu]
    simp only [mean_confidence, List.map_cons, List.map_nil, List.sum_cons, List.sum_nil,
      List.length_cons, List.length_nil, sr1, sr2]
    rw [hq]
    norm_num

/-- Concrete instance of (amended) claim C2 at five candidates, a budget
that fits two of them, a citing reply, and the error message "oops". -/
theorem claim_c2_witness :
    rs5 ≠ [] ∧ context_parts 120 rs5 ≠ [] ∧ "Source 1 and Source 2 agree." ≠ "" ∧
    (((generate_answer "q2" rs5 120 (Except.ok "Source 1 and Source 2 agree.")).sources
        = used_sources 120 rs5 ∧
      (generate_answer "q2" rs5 120 (Except.ok "Source 1 and Source 2 agree.")).confidence_score
        = mean_confidence (used_sources 120 rs5)) ∧
     ((generate_answer "q2" rs5 120 (Except.ok "")).sources = used_sources 120 rs5 ∧
      (generate_answer "q2" rs5 120 (Except.ok "")).confidence_score
        = mean_confidence (used_sources 120 rs5) ∧
      (generate_answer "q2" rs5 120 (Except.ok "")).has_citations = false) ∧
     ((generate_answer "q2" rs5 120 (Except.error "oops")).sources = rs5.take 3 ∧
      (generate_answer "q2" rs5 120 (Except.error "oops")).confidence_score = 0 ∧
      (generate_answer "q2" rs5 120 (Except.error "oops")).has_citations = false)) :=
  ⟨by decide, by decide, by decide,
   claim_c2 "q2" rs5 120 "Source 1 and Source 2 agree." "oops" (by decide) (by decide) (by decide)⟩

/-- Claim C3, amended: a parsed entry's confidence is
`max(0.1, min(1.0, 1 - distance))` when a distance is present — and that
clamped value always lies in [0.1, 1] regardless of the raw distance
magnitude — the raw score value, used directly and unclamped, when only a
score is present, and the default 0.8 (which lies in [0, 1]) when
neither is present. -/
theorem claim_c3 (i : ℕ) (c : Core.RawContext) (d s : ℚ) :
    (c.distance = some (Except.ok d) →
       (Core.parse_context i c).map (fun r => r.confidence_score)
         = Except.ok (max (1 / 10 : ℚ) (min 1 (1 - d))) ∧
       (1 / 10 : ℚ) ≤ max (1 / 10 : ℚ) (min 1 (1 - d)) ∧
       max (1 / 10 : ℚ) (min 1 (1 - d)) ≤ 1) ∧
    (c.distance = none → c.score = some (Except.ok s) →
       (Core.parse_context i c).map (fun r => r.confidence_score) = Except.ok s) ∧
    (c.distance = none → c.score = none →
       (Core.parse_context i c).map (fun r => r.confidence_score)
         = Except.ok ((4 : ℚ) / 5) ∧
       (0 : ℚ) ≤ (4 : ℚ) / 5 ∧ ((4 : ℚ) / 5) ≤ 1) ∧
    ((Core.parse_context 0 ctx_dist_neg5).map (fun r => r.confidence_score)
       = Except.ok 1) ∧
    ((Core.parse_context 0 ctx_dist5).map (fun r => r.confidence_score)
       = Except.ok (1 / 10)) := by
  have hneg : max (1 / 10 : ℚ) (min 1 (1 - (-5))) = 1 := by
    rw [show (1 : ℚ) - (-5) = 6 by norm_num,
        min_eq_left (by norm_num : (1 : ℚ) ≤ 6),
        max_eq_right (by norm_num : (1 / 10 : ℚ) ≤ 1)]
  have hpos : max (1 / 10 : ℚ) (min 1 (1 - 5)) = 1 / 10 := by
    rw [show (1 : ℚ) - 5 = -4 by norm_num,
        min_eq_right (by norm_num : (-4 : ℚ) ≤ 1),
        max_eq_left (by norm_num : (-4 : ℚ) ≤ 1 / 10)]
  refine ⟨?_, ?_, ?_, ?_, ?_⟩
  · intro h
    refine ⟨?_, le_max_left _ _, max_le (by norm_num) (min_le_left _ _)⟩
    simp [Core.parse_context, h, Except.map]
  · intro h1 h2
    simp [Core.parse_context, h1, h2, Except.map]
  · intro h1 h2
    refine ⟨?_, by norm_num, by norm_num⟩
    simp [Core.parse_context, h1, h2, Except.map, pure, Except.pure, bind, Except.bind]
  · rw [show (Core.parse_context 0 ctx_dist_neg5).map (fun r => r.confidence_score)
        = Except.ok (max (1 / 10 : ℚ) (min 1 (1 - (-5)))) by
          simp [Core.parse_context, ctx_dist_neg5, Except.map], hneg]
  · rw [show (Core.parse_context 0 ctx_dist5).map (fun r => r.confidence_score)
        = Except.ok (max (1 / 10 : ℚ) (min 1 (1 - 5))) by
          simp [Core.parse_context, ctx_dist5, Except.map], hpos]

/-- Counterexample to claim C3 as stated: an entry carrying no distance
and a raw score of 5 is parsed with confidence 5, which does not lie in
[0, 1] — the score branch is not clamped. -/
theorem claim_c3_counterexample :
    (Core.parse_context 0 ctx_score_five).map (fun r => r.confidence_score) = Except.ok 5 ∧
    ¬ ((5 : ℚ) ≤ 1) := by
  constructor
  · simp [Core.parse_context, ctx_score_five, Except.map]
  · norm_num

/-- Concrete instances of (amended) claim C3: one entry per branch of the
confidence derivation. -/
theorem claim_c3_witness :
    ((Core.parse_context 2 ctx_dist_half).map (fun r => r.confidence_score)
       = Except.ok (max (1 / 10 : ℚ) (min 1 (1 - 1 / 2))) ∧
     (1 / 10 : ℚ) ≤ max (1 / 10 : ℚ) (min 1 (1 - 1 / 2)) ∧
     max (1 / 10 : ℚ) (min 1 (1 - 1 / 2)) ≤ 1) ∧
    ((Core.parse_context 3 ctx_score_one).map (fun r => r.confidence_score)
       = Except.ok 1) ∧
    ((Core.parse_context 4 ctx_empty).map (fun r => r.confidence_score)
       = Except.ok ((4 : ℚ) / 5) ∧
     (0 : ℚ) ≤ (4 : ℚ) / 5 ∧ ((4 : ℚ) / 5) ≤ 1) :=
  ⟨(claim_c3 2 ctx_dist_half (1 / 2) 0).1 rfl,
   (claim_c3 3 ctx_score_one 0 1).2.1 rfl rfl,
   (claim_c3 4 ctx_empty 0 0).2.2.1 rfl rfl⟩

/-- A rate-limit check for a user whose window has not yet expired:
accept exactly while the stored count is below the limit, increment only
on accept, and leave the reset timestamp unchanged. -/
theorem check_rate_limit_within (window : ℚ) (limit : ℕ) (st : RLState) (u : String)
    (t0 now : ℚ) (hr : st.lastReset u = some t0) (hnow : now - t0 < window) :
    (check_rate_limit window limit st u now).1 = decide ((st.count u).getD 0 < limit) ∧
    ((check_rate_limit window limit st u now).2).count u
      = (if (st.count u).getD 0 < limit then some ((st.count u).getD 0 + 1)
         else st.count u) ∧
    ((check_rate_limit window limit st u now).2).lastReset u = some t0 := by
  have hcond : ¬ (now - t0 ≥ window) := not_le.mpr hnow
  by_cases hc : (st.count u).getD 0 ≥ limit
  · have hlt : ¬ ((st.count u).getD 0 < limit) := not_lt.mpr hc
    refine ⟨?_, ?_, ?_⟩ <;>
      simp [check_rate_limit, hr, hcond, hc, hlt]
  · have hlt : (st.count u).getD 0 < limit := lt_of_not_ge hc
    refine ⟨?_, ?_, ?_⟩ <;>
      simp [check_rate_limit, hr, hcond, hc, hlt, updFn]

/-- A rate-limit check for a first-time user: both entries are
initialised, the effective count is 0, and the request is accepted
exactly when the limit is positive. -/
theorem check_rate_limit_first (window : ℚ) (limit : ℕ) (st : RLState) (u : String)
    (now : ℚ) (hr : st.lastReset u = none) :
    (check_rate_limit window limit st u now).1 = decide (0 < limit) ∧
    ((check_rate_limit window limit st u now).2).count u
      = (if 0 < limit then some 1 else some 0) ∧
    ((check_rate_limit window limit st u now).2).lastReset u = some now := by
  by_cases hc : 0 ≥ limit
  · have hz : limit = 0 := Nat.le_zero.mp hc
    refine ⟨?_, ?_, ?_⟩ <;> simp [check_rate_limit, hr, hz, updFn]
  · have hpos : 0 < limit := lt_of_not_ge hc
    refine ⟨?_, ?_, ?_⟩ <;>
      simp [check_rate_limit, hr, hpos, Nat.pos_iff_ne_zero.mp hpos, updFn, Nat.not_lt.mpr]

/-- A rate-limit check after the window expired: the count is reset to 0
and the timestamp refreshed before the limit is consulted. -/
theorem check_rate_limit_reset (window : ℚ) (limit : ℕ) (st : RLState) (u : String)
    (t0 now : ℚ) (hr : st.lastReset u = some t0) (hnow : now - t0 ≥ window) :
    (check_rate_limit window limit st u now).1 = decide (0 < limit) ∧
    ((check_rate_limit window limit st u now).2).count u
      = (if 0 < limit then some 1 else some 0) ∧
    ((check_rate_limit window limit st u now).2).lastReset u = some now := by
  by_cases hc : 0 ≥ limit
  · have hz : limit = 0 := Nat.le_zero.mp hc
    refine ⟨?_, ?_, ?_⟩ <;> simp [check_rate_limit, hr, hnow, hz, updFn]
  · have hpos : 0 < limit := lt_of_not_ge hc
    refine ⟨?_, ?_, ?_⟩ <;>
      simp [check_rate_limit, hr, hnow, hpos, Nat.pos_iff_ne_zero.mp hpos, updFn]

/-- Running further requests inside the current window: while the count
stays within the limit every request is accepted, the count advances by
one per request, and the reset timestamp never moves. -/
theorem run_requests_within (window : ℚ) (limit : ℕ) (u : String) (t0 : ℚ) :
    ∀ (ts : List ℚ) (st : RLState) (c : ℕ),
      st.count u = some c → st.lastReset u = some t0 →
      (∀ t ∈ ts, t - t0 < window) → c + ts.length ≤ limit →
      (run_requests window limit u st ts).1 = List.replicate ts.length true ∧
      ((run_requests window limit u st ts).2).count u = some (c + ts.length) ∧
      ((run_requests window limit u st ts).2).lastReset u = some t0 := by
  intro ts
  induction ts with
  | nil =>
    intro st c h1 h2 _ _
    exact ⟨rfl, by simpa using h1, h2⟩
  | cons t ts ih =>
    intro st c h1 h2 hts hle
    have hwin : t - t0 < window := hts t (by simp)
    obtain ⟨hb, hcnt, hlr⟩ := check_rate_limit_within window limit st u t0 t h2 hwin
    have hclt : c < limit := by
      have := hle
      simp only [List.length_cons] at this
      omega
    have hb2 : (check_rate_limit window limit st u t).1 = true := by
      rw [hb, h1]
      simpa using hclt
    have hcnt2 : ((check_rate_limit window limit st u t).2).count u = some (c + 1) := by
      rw [hcnt, h1]
      simp [hclt]
    obtain ⟨ih1, ih2, ih3⟩ := ih ((check_rate_limit window limit st u t).2) (c + 1) hcnt2 hlr
      (fun t2 ht2 => hts t2 (by simp [ht2]))
      (by simp only [List.length_cons] at hle; omega)
    refine ⟨?_, ?_, ?_⟩
    · simp only [run_requests, hb2, ih1, List.length_cons, List.replicate_succ]
    · simp only [run_requests, ih2, List.length_cons]
      congr 1
      omega
    · simp only [run_requests, ih3]

/-- Claim C4: each rate-limit check resets the stored count when the
window expired (or initialises it for a first request), then rejects
without incrementing exactly when the effective count has reached the
limit and otherwise increments and accepts; consequently, starting from
empty state, `limit` requests inside one window are all accepted, a
further request inside the window is rejected, and a request after the
window elapses is accepted again. -/
theorem claim_c4 (window : ℚ) (limit : ℕ) (u : String) (st : RLState) (now t0 : ℚ)
    (ts : List ℚ) (t1 t2 : ℚ)
    (hlim : 1 ≤ limit) (hlen : (t0 :: ts).length = limit)
    (hts : ∀ t ∈ ts, t - t0 < window)
    (h1 : t1 - t0 < window) (h2 : t2 - t0 ≥ window) :
    ((check_rate_limit window limit st u now).1 = true
       ↔ eff_count window st u now < limit) ∧
    ((check_rate_limit window limit st u now).1 = false →
       (((check_rate_limit window limit st u now).2).count u).getD 0
         = eff_count window st u now) ∧
    ((check_rate_limit window limit st u now).1 = true →
       ((check_rate_limit window limit st u now).2).count u
         = some (eff_count window st u now + 1)) ∧
    ((run_requests window limit u emptyRL (t0 :: ts)).1 = List.replicate limit true) ∧
    ((check_rate_limit window limit
        ((run_requests window limit u emptyRL (t0 :: ts)).2) u t1).1 = false) ∧
    ((check_rate_limit window limit
        ((run_requests window limit u emptyRL (t0 :: ts)).2) u t2).1 = true) := by
  have hper :
      ((check_rate_limit window limit st u now).1 = true
        ↔ eff_count window st u now < limit) ∧
      ((check_rate_limit window limit st u now).1 = false →
        (((check_rate_limit window limit st u now).2).count u).getD 0
          = eff_count window st u now) ∧
      ((check_rate_limit window limit st u now).1 = true →
        ((check_rate_limit window limit st u now).2).count u
          = some (eff_count window st u now + 1)) := by
    rcases hlr : st.lastReset u with _ | lr
    · obtain ⟨hb, hcnt, _⟩ := check_rate_limit_first window limit st u now hlr
      have heff : eff_count window st u now = 0 := by simp [eff_count, hlr]
      refine ⟨?_, ?_, ?_⟩
      · rw [hb, heff]
        exact decide_eq_true_iff
      · intro hfalse
        rw [hb] at hfalse
        have hz : ¬ (0 < limit) := by simpa using hfalse
        rw [hcnt, if_neg hz, heff]
        rfl
      · intro htrue
        rw [hb] at htrue
        have hz : 0 < limit := by simpa using htrue
        rw [hcnt, if_pos hz, heff]
    · by_cases hwin : now - lr ≥ window
      · obtain ⟨hb, hcnt, _⟩ := check_rate_limit_reset window limit st u lr now hlr hwin
        have heff : eff_count window st u now = 0 := by simp [eff_count, hlr, hwin]
        refine ⟨?_, ?_, ?_⟩
        · rw [hb, heff]
          exact decide_eq_true_iff
        · intro hfalse
          rw [hb] at hfalse
          have hz : ¬ (0 < limit) := by simpa using hfalse
          rw [hcnt, if_neg hz, heff]
          rfl
        · intro htrue
          rw [hb] at htrue
          have hz : 0 < limit := by simpa using htrue
          rw [hcnt, if_pos hz, heff]
      · have hwin2 : now - lr < window := lt_of_not_ge hwin
        obtain ⟨hb, hcnt, _⟩ := check_rate_limit_within window limit st u lr now hlr hwin2
        have heff : eff_count window st u now = (st.count u).getD 0 := by
          simp [eff_count, hlr, hwin]
        refine ⟨?_, ?_, ?_⟩
        · rw [hb, heff]
          exact decide_eq_true_iff
        · intro hfalse
          rw [hb] at hfalse
          have hz : ¬ ((st.count u).getD 0 < limit) := by simpa using hfalse
          rw [hcnt, if_neg hz, heff]
        · intro htrue
          rw [hb] at htrue
          have hz : (st.count u).getD 0 < limit := by simpa using htrue
          rw [hcnt, if_pos hz, heff]
  have hpos : 0 < limit := hlim
  obtain ⟨hb0, hcnt0, hlr0⟩ :=
    check_rate_limit_first window limit emptyRL u t0 rfl
  have hb0t : (check_rate_limit window limit emptyRL u t0).1 = true := by
    rw [hb0]
    simpa using hpos
  have hcnt0t : ((check_rate_limit window limit emptyRL u t0).2).count u = some 1 := by
    rw [hcnt0, if_pos hpos]
  have hlen2 : 1 + ts.length ≤ limit := by
    simp only [List.length_cons] at hlen
    omega
  obtain ⟨hrun1, hrun2, hrun3⟩ :=
    run_requests_within window limit u t0 ts
      ((check_rate_limit window limit emptyRL u t0).2) 1 hcnt0t hlr0 hts hlen2
  have hfin1 : (run_requests window limit u emptyRL (t0 :: ts)).1
      = List.replicate limit true := by
    simp only [run_requests, hb0t, hrun1]
    have : ts.length + 1 = limit := by
      simp only [List.length_cons] at hlen
      omega
    rw [← this, List.replicate_succ]
  have hfin2 : ((run_requests window limit u emptyRL (t0 :: ts)).2).count u
      = some limit := by
    simp only [run_requests, hrun2]
    congr 1
    simp only [List.length_cons] at hlen
    omega
  have hfin3 : ((run_requests window limit u emptyRL (t0 :: ts)).2).lastReset u
      = some t0 := by
    simp only [run_requests, hrun3]
  refine ⟨hper.1, hper.2.1, hper.2.2, hfin1, ?_, ?_⟩
  · obtain ⟨hb1, _, _⟩ := check_rate_limit_within window limit
      ((run_requests window limit u emptyRL (t0 :: ts)).2) u t0 t1 hfin3 h1
    rw [hb1, hfin2]
    simp
  · obtain ⟨hb2, _, _⟩ := check_rate_limit_reset window limit
      ((run_requests window limit u emptyRL (t0 :: ts)).2) u t0 t2 hfin3 h2
    rw [hb2]
    simpa using hpos

/-- 1 second into a 60-second window that started at time 0. -/
theorem rat_one_in_window : (1 : ℚ) - 0 < 60 := by norm_num

/-- 2 seconds into a 60-second window that started at time 0. -/
theorem rat_two_in_window : (2 : ℚ) - 0 < 60 := by norm_num

/-- 60 seconds after time 0 the 60-second window has elapsed. -/
theorem rat_sixty_window_elapsed : (60 : ℚ) - 0 ≥ 60 := by norm_num

/-- Concrete instance of claim C4: limit 2, window 60 s, requests at
times 0 and 1 are accepted, a third at time 2 is rejected, and one at
time 60 is accepted again; the accept answer at time 5 agrees with the
effective-count contract. -/
theorem claim_c4_witness :
    ((check_rate_limit 60 2 emptyRL "u" 5).1 = true
       ↔ eff_count 60 emptyRL "u" 5 < 2) ∧
    ((run_requests 60 2 "u" emptyRL [0, 1]).1 = List.replicate 2 true) ∧
    ((check_rate_limit 60 2 ((run_requests 60 2 "u" emptyRL [0, 1]).2) "u" 2).1 = false) ∧
    ((check_rate_limit 60 2 ((run_requests 60 2 "u" emptyRL [0, 1]).2) "u" 60).1 = true) :=
  have h := claim_c4 60 2 "u" emptyRL 5 0 [1] 2 60 (by decide) (by decide)
    (List.forall_mem_singleton.mpr rat_one_in_window)
    rat_two_in_window rat_sixty_window_elapsed
  ⟨h.1, h.2.2.2.1, h.2.2.2.2.1, h.2.2.2.2.2⟩

/-- Claim C5: on the successful generation path, the returned
`has_citations` flag is true exactly when the answer text contains the
literal token `Source k` for some `k` between 1 and the number of used
sources. -/
theorem claim_c5 (query : String) (results : List SearchResult) (maxLen : ℕ)
    (text : String) (hne : results ≠ [])
    (hparts : context_parts maxLen results ≠ []) (htext : text ≠ "") :
    ((generate_answer query results maxLen (Except.ok text)).has_citations = true ↔
      ∃ k, 1 ≤ k ∧
        k ≤ (generate_answer query results maxLen (Except.ok text)).sources.length ∧
        str_contains (generate_answer query results maxLen (Except.ok text)).answer
          ("Source " ++ toString k) = true) := by
  have hp : (build_context maxLen 1 0 results).1 ≠ [] := hparts
  have hres : generate_answer query results maxLen (Except.ok text)
      = ⟨pyStrip text, (build_context maxLen 1 0 results).2.2,
         mean_confidence (build_context maxLen 1 0 results).2.2,
         (List.range' 1 ((build_context maxLen 1 0 results).2.2).length).any
           (fun i => str_contains (pyStrip text) ("Source " ++ toString i))⟩ := by
    simp [generate_answer, hne, hp, htext]
  rw [hres]
  simp only [List.any_eq_true, List.mem_range'_1]
  constructor
  · rintro ⟨k, ⟨hk1, hk2⟩, hk3⟩
    exact ⟨k, hk1, by omega, hk3⟩
  · rintro ⟨k, hk1, hk2, hk3⟩
    exact ⟨k, ⟨hk1, by omega⟩, hk3⟩

/-- Concrete instance of claim C5: an answer citing `Source 2` out of two
used sources. -/
theorem claim_c5_witness :
    ((generate_answer "q5" rs5 120 (Except.ok "See Source 2.")).has_citations = true ↔
      ∃ k, 1 ≤ k ∧
        k ≤ (generate_answer "q5" rs5 120 (Except.ok "See Source 2.")).sources.length ∧
        str_contains (generate_answer "q5" rs5 120 (Except.ok "See Source 2.")).answer
          ("Source " ++ toString k) = true) :=
  claim_c5 "q5" rs5 120 "See Source 2." (by decide) (by decide) (by decide)

/-- Counterexample to claim C6 as stated: a user already at the limit
(limit 1, one accepted request at time 0) who sends the too-short query
"hi" at time 10 receives the rate-limit reply, not the
"please provide a question" guidance — the rate limit is checked before
the length check. -/
theorem claim_c6_counterexample :
    (handle_query 60 1 ((check_rate_limit 60 1 emptyRL "u" 0).2) "u" 10 "hi").1
      = BotReply.rate_limited ∧
    BotReply.rate_limited ≠ BotReply.guidance ∧
    clean_query "hi" = "hi" ∧ (pyStrip "hi").length < 3 := by
  have hst : ((check_rate_limit 60 1 emptyRL "u" 0).2).lastReset "u" = some 0 := by
    simp [check_rate_limit, emptyRL, updFn]
  have hcnt : ((check_rate_limit 60 1 emptyRL "u" 0).2).count "u" = some 1 := by
    simp [check_rate_limit, emptyRL, updFn]
  obtain ⟨hb, _, _⟩ := check_rate_limit_within 60 1
    ((check_rate_limit 60 1 emptyRL "u" 0).2) "u" 0 10 hst (by norm_num)
  have hb2 : (check_rate_limit 60 1 ((check_rate_limit 60 1 emptyRL "u" 0).2) "u" 10).1
      = false := by
    rw [hb, hcnt]
    simp
  exact ⟨by simp [handle_query, hb2], by decide, by decide, by decide⟩

/-- Claim C6, amended: in `_handle_query` the rate-limit check runs
before the length check, so a rate-limited request is answered with the
rate-limit reply whatever its text; a request that passes the rate limit
and whose cleaned query is empty or shorter than 3 characters after
stripping is answered with the "please provide a question" guidance, and
neither path invokes the retrieval client. -/
theorem claim_c6_amended (window : ℚ) (limit : ℕ) (st : RLState) (u : String)
    (now : ℚ) (text : String) :
    ((check_rate_limit window limit st u now).1 = false →
       (handle_query window limit st u now text).1 = BotReply.rate_limited ∧
       calls_search (handle_query window limit st u now text).1 = false) ∧
    ((check_rate_limit window limit st u now).1 = true →
       (clean_query text = "" ∨ (pyStrip (clean_query text)).length < 3) →
       (handle_query window limit st u now text).1 = BotReply.guidance ∧
       calls_search (handle_query window limit st u now text).1 = false) := by
  constructor
  · intro hf
    constructor <;> simp [handle_query, hf, calls_search]
  · intro ht hshort
    constructor <;> simp [handle_query, ht, hshort, calls_search]

/-- Concrete instances of (amended) claim C6: a rate-limited request
(limit 0) is answered with the rate-limit reply, and an accepted
too-short request ("hi") with the guidance reply; neither reaches the
retrieval client. -/
theorem claim_c6_witness :
    ((handle_query 60 0 emptyRL "v" 0 "what is the pto policy?").1
       = BotReply.rate_limited ∧
     calls_search (handle_query 60 0 emptyRL "v" 0 "what is the pto policy?").1 = false) ∧
    ((handle_query 60 1 emptyRL "u" 0 "hi").1 = BotReply.guidance ∧
     calls_search (handle_query 60 1 emptyRL "u" 0 "hi").1 = false) :=
  ⟨(claim_c6_amended 60 0 emptyRL "v" 0 "what is the pto policy?").1 (by decide),
   (claim_c6_amended 60 1 emptyRL "u" 0 "hi").2 (by decide) (Or.inr (by decide))⟩

/-- Claim C7: a backend error whose text matches the
"not implemented"/501 classifier makes `search_async` return an empty
result list instead of re-raising and makes the connection self-check
report success (degraded but connected); any other backend error is
re-raised and fails the self-check; a successful backend reply is parsed
and always passes the self-check. The classifier itself accepts a 501
status text and a case-insensitive "not implemented" message, and rejects
an unrelated error. -/
theorem claim_c7 (e : String) (ctxs : List Core.RawContext) :
    Core.search_async (Except.error e)
      = (if Core.is_not_impl_err e then Except.ok [] else Except.error e) ∧
    Core.test_connection_async (Except.error e) = Core.is_not_impl_err e ∧
    Core.search_async (Except.ok ctxs) = Except.ok (Core.parse_contexts ctxs) ∧
    Core.test_connection_async (Except.ok ctxs) = true ∧
    Core.is_not_impl_err "Received 501 from server" = true ∧
    Core.is_not_impl_err "RAG Engine NOT IMPLEMENTED here" = true ∧
    Core.is_not_impl_err "Permission denied" = false := by
  refine ⟨rfl, ?_, rfl, rfl, by decide, by decide, by decide⟩
  cases h : Core.is_not_impl_err e <;>
    simp [Core.test_connection_async, Core.search_async, h]

/-- A `dropWhile` fixed point is inherited by prefixes: if dropping from
`l` removes nothing, dropping from a prefix of `l` removes nothing. -/
theorem dropWhile_eq_self_of_prefix {α : Type} (p : α → Bool) {l m : List α}
    (h : List.dropWhile p l = l) (hpre : m <+: l) :
    List.dropWhile p m = m := by
  cases m with
  | nil => rfl
  | cons a t =>
    obtain ⟨r, hr⟩ := hpre
    cases l with
    | nil => simp at hr
    | cons b u =>
      have hab : a = b := by
        have := hr
        simp only [List.cons_append] at this
        exact (List.cons.injEq a (t ++ r) b u ▸ this).1
      subst hab
      have hnb : ¬ p a := by
        intro hpb
        rw [List.dropWhile_cons, if_pos hpb] at h
        have hlen := congrArg List.length h
        have hle : (List.dropWhile p u).length ≤ u.length :=
          (List.dropWhile_suffix p).length_le
        simp only [List.length_cons] at hlen
        omega
      rw [List.dropWhile_cons, if_neg hnb]

/-- Python `strip` is idempotent. -/
theorem pyStripList_idem (l : List Char) :
    pyStripList (pyStripList l) = pyStripList l := by
  unfold pyStripList
  have ha : List.dropWhile pyIsSpace (List.dropWhile pyIsSpace l)
      = List.dropWhile pyIsSpace l := List.dropWhile_idempotent pyIsSpace l
  have hpre : List.rdropWhile pyIsSpace (List.dropWhile pyIsSpace l)
      <+: List.dropWhile pyIsSpace l := List.rdropWhile_prefix pyIsSpace _
  have h1 : List.dropWhile pyIsSpace
      (List.rdropWhile pyIsSpace (List.dropWhile pyIsSpace l))
      = List.rdropWhile pyIsSpace (List.dropWhile pyIsSpace l) :=
    dropWhile_eq_self_of_prefix pyIsSpace ha hpre
  rw [h1]
  exact List.rdropWhile_idempotent pyIsSpace _

/-- Rebuilding a string from its character data is the identity. -/
theorem string_mk_data (s : String) : String.mk s.data = s := by
  cases s
  rfl

/-- The output of `_clean_query` carries no leading or trailing
whitespace: stripping it again changes nothing. -/
theorem clean_query_stripped (text : String) :
    pyStripList (clean_query text).data = (clean_query text).data := by
  by_cases h : ("/ask".data).isPrefixOf
      (pyStripList (stripMentionsGo (pyStripList text.data).length (pyStripList text.data)))
  · simp only [clean_query, if_pos h]
    exact pyStripList_idem _
  · simp only [clean_query, if_neg h]
    exact pyStripList_idem _

/-- A string that is already stripped, contains no mention token and does
not start with `/ask` is a fixed point of `_clean_query`. -/
theorem clean_query_fixed (s : String)
    (hstr : pyStripList s.data = s.data)
    (hm : stripMentionsGo s.data.length s.data = s.data)
    (ha : ("/ask".data).isPrefixOf s.data = false) :
    clean_query s = s := by
  simp only [clean_query, hstr, hm, ha]
  simp [string_mk_data]

/-- Counterexample to claim C8 as stated: normalization is not
idempotent. A first pass over `"/ask/ask"` removes one `/ask` token and
leaves `"/ask"`; a second pass removes that one too. -/
theorem claim_c8_counterexample :
    clean_query "/ask/ask" = "/ask" ∧ clean_query (clean_query "/ask/ask") = "" ∧
    clean_query (clean_query "/ask/ask") ≠ clean_query "/ask/ask" := by
  refine ⟨by decide, by decide, by decide⟩

/-- Claim C8, amended: `_clean_query` is idempotent on every string whose
first normalization contains no remaining `<@U...>` mention token and
does not again start with `/ask` (a single pass removes only one leading
`/ask`, and removing mention tokens can splice new ones together, so
idempotence fails in general). -/
theorem claim_c8_amended (x : String)
    (hm : stripMentionsGo (clean_query x).data.length (clean_query x).data
            = (clean_query x).data)
    (ha : ("/ask".data).isPrefixOf (clean_query x).data = false) :
    clean_query (clean_query x) = clean_query x :=
  clean_query_fixed (clean_query x) (clean_query_stripped x) hm ha

/-- Concrete instance of (amended) claim C8: one pass over
`"  /ask what is PTO? "` yields `"what is PTO?"`, whose normalization is
itself. -/
theorem claim_c8_witness :
    stripMentionsGo (clean_query "  /ask what is PTO? ").data.length
        (clean_query "  /ask what is PTO? ").data
      = (clean_query "  /ask what is PTO? ").data ∧
    ("/ask".data).isPrefixOf (clean_query "  /ask what is PTO? ").data = false ∧
    clean_query (clean_query "  /ask what is PTO? ") = clean_query "  /ask what is PTO? " :=
  ⟨by decide, by decide, claim_c8_amended "  /ask what is PTO? " (by decide) (by decide)⟩

/-- Claim C9, against the code as written: `chat_endpoint` passes the
keyword argument `confidence_threshold` to
`WebRAGService.process_query`, whose signature accepts
`distance_threshold` instead, so binding the call raises `TypeError`
before the pipeline runs and every request — valid ones included — is
answered through the error path with HTTP 500 / `PROCESSING_ERROR`,
never with the success response. -/
theorem claim_c9 (req : ChatRequest) (conv_id : String) (svc : WebRAGResult)
    (_hvalid : valid_chat_request req) :
    chat_call_binds = false ∧
    chat_endpoint req conv_id svc = ChatOutcome.http_error 500 "PROCESSING_ERROR" := by
  have hb : chat_call_binds = false := by decide
  exact ⟨hb, by simp [chat_endpoint, hb]⟩

/-- Concrete instance of claim C9: a well-formed query is answered with
the 500 error outcome. -/
theorem claim_c9_witness :
    chat_call_binds = false ∧
    chat_endpoint ⟨"What is our PTO policy?", none, none, none⟩ "conv-1" ⟨"ans", 1, [], 5⟩
      = ChatOutcome.http_error 500 "PROCESSING_ERROR" :=
  claim_c9 ⟨"What is our PTO policy?", none, none, none⟩ "conv-1" ⟨"ans", 1, [], 5⟩
    ⟨by decide, by decide, trivial, trivial⟩

/-- Claim C10: the per-entry parser is total — an entry with every
optional field missing still yields a `SearchResult` with the defaults
(title `Document i+1`, empty source URI, confidence 0.8) — and an entry
whose processing raises is skipped while all other entries are still
parsed at their original indices; a parsed envelope therefore never makes
`search_async` raise. -/
theorem claim_c10 (k i : ℕ) (pre suf : List Core.RawContext) (bad : Core.RawContext)
    (hbad : (Core.parse_context (k + pre.length) bad).isOk = false) :
    Core.parse_contexts_from k (pre ++ bad :: suf)
      = Core.parse_contexts_from k pre
        ++ Core.parse_contexts_from (k + pre.length + 1) suf ∧
    Core.parse_context i ⟨none, none, none, none, none, none⟩
      = Except.ok ⟨"Document " ++ toString (i + 1), "", "", 4 / 5, some ⟨i, true, 0, none⟩⟩ := by
  constructor
  · induction pre generalizing k with
    | nil =>
      simp only [List.length_nil, Nat.add_zero] at hbad
      cases h : Core.parse_context k bad with
      | ok r => rw [h] at hbad; simp [Except.isOk, Except.toBool] at hbad
      | error u =>
        simp [Core.parse_contexts_from, h]
    | cons c pre ih =>
      have hbad2 : (Core.parse_context (k + 1 + pre.length) bad).isOk = false := by
        have : k + 1 + pre.length = k + (c :: pre).length := by
          simp only [List.length_cons]
          omega
        rw [this]
        exact hbad
      have hidx : k + (c :: pre).length + 1 = k + 1 + pre.length + 1 := by
        simp only [List.length_cons]
        omega
      rw [hidx]
      cases h : Core.parse_context k c with
      | ok r =>
        simp only [List.cons_append, Core.parse_contexts_from, h]
        congr 1
        exact ih (k + 1) hbad2
      | error u =>
        simp only [List.cons_append, Core.parse_contexts_from, h]
        exact ih (k + 1) hbad2
  · rfl

/-- Concrete instance of claim C10: an envelope of three entries whose
middle entry has a non-convertible distance parses to the two good
entries, at their original indices. -/
theorem claim_c10_witness :
    (Core.parse_context (0 + [ctx_textonly].length) ctx_bad).isOk = false ∧
    Core.parse_contexts_from 0 ([ctx_textonly] ++ ctx_bad :: [ctx_empty])
      = Core.parse_contexts_from 0 [ctx_textonly]
        ++ Core.parse_contexts_from (0 + [ctx_textonly].length + 1) [ctx_empty] ∧
    Core.parse_context 7 ⟨none, none, none, none, none, none⟩
      = Except.ok ⟨"Document " ++ toString (7 + 1), "", "", 4 / 5, some ⟨7, true, 0, none⟩⟩ :=
  have h := claim_c10 0 7 [ctx_textonly] [ctx_empty] ctx_bad (by decide)
  ⟨by decide, h.1, h.2⟩
